import Mathlib

set_option maxHeartbeats 1000000

/- Verification of the synchronization engine of azkatech/azk_zkteco_machine_proxy
   (zkteco_machine_proxy.py): a shallow embedding of the attendance-sync loop
   (`_sync_to_odoo_thread`, lines 1168-1251), the per-machine fetch
   (`_fetch_data_for_machine`, lines 916-976), the user upsert (lines 940-943),
   the pytz timezone conversion (lines 1187-1199) and the "%Y-%m-%d %H:%M:%S"
   timestamp rendering, together with theorems settling the spec's claims. -/

/-! ## Attendance sync model (`_sync_to_odoo_thread`, lines 1168-1251)

One unsynced attendance row as produced by the query
`SELECT a.*, m.odoo_machine_id, m.machine_timezone FROM attendance a JOIN
zkteco_machines m ON a.connection_id = m.id WHERE a.synched_time IS NULL`.
`odoo_machine_id = none` models SQL NULL; `some 0` is also falsy in Python. -/

structure AttRow where
  id : Nat
  connection_id : Nat
  user_id : String
  att_id : String
  timestamp : String
  synched_time : Option String
  odoo_machine_id : Option Nat
  machine_timezone : Option String
  deriving DecidableEq, Repr

/-- One element of `payload_batch` (lines 1217-1222). -/
structure Payload where
  user_id : String
  timestamp : String
  machine_id : Nat
  att_id : String
  deriving DecidableEq, Repr

/-- The in-memory state of the attendance-sync loop:
`cache` is `last_user_attendance`, `payload` is `payload_batch`,
`ids` is `record_id_batch`, `sent` records the payload of every
`create` call attempted, `updates` records every executed
`UPDATE attendance SET synched_time = t WHERE id IN ids` statement,
`calls` counts `create` calls, `syncedCount` is `synced_count`. -/
structure SyncSt where
  cache : List (String × Option String)
  payload : List Payload
  ids : List Nat
  sent : List (List Payload)
  updates : List (List Nat × String)
  calls : Nat
  syncedCount : Nat
  deriving DecidableEq, Repr

/-- The remote Odoo endpoint and the wall clock, as oracles:
`latest u m` is the `search_read` for the most recent remote attendance of
user `u` on machine `m` (order timestamp desc, limit 1); `.error` models the
call raising. `createOk n` tells whether the `n`-th `create` call succeeds.
`flushTime n` is the `datetime.now()` string sampled after the `n`-th
successful flush's create call returns. -/
structure Remote where
  latest : String → Nat → Except Unit (Option String)
  createOk : Nat → Bool
  flushTime : Nat → String

def initSt : SyncSt := ⟨[], [], [], [], [], 0, 0⟩

/-- Lines 1189-1199: `timestamp_to_send = att['timestamp']`; when the machine
has a truthy timezone, try the pytz conversion (`conv`, an oracle for
`pytz.timezone(z).localize(naive, is_dst=None).astimezone(pytz.utc)`;
`none` models the call raising), and on any exception keep the naive string. -/
def timestampToSend (conv : String → String → Option String) (att : AttRow) : String :=
  match att.machine_timezone with
  | none => att.timestamp
  | some z =>
    if z = "" then att.timestamp
    else
      match conv z att.timestamp with
      | some u => u
      | none => att.timestamp

/-- Lexicographic comparison of character lists by code point: the comparison
Python's `str < str` and SQLite's text ordering perform. -/
def charListLt : List Char → List Char → Bool
  | [], [] => false
  | [], _ :: _ => true
  | _ :: _, [] => false
  | a :: as, b :: bs => if a < b then true else if b < a then false else charListLt as bs

/-- Python's `<` on strings. -/
def pyStrLt (s t : String) : Bool := charListLt s.data t.data

/-- Line 1216: `if not last_user_attendance[uid] or last_user_attendance[uid] < timestamp_to_send`.
`none` and the empty string are falsy in Python; otherwise Python compares the
strings lexicographically. -/
def includeRecord (c : Option String) (tts : String) : Bool :=
  match c with
  | none => true
  | some s => decide (s = "") || pyStrLt s tts

/-- Dictionary lookup `last_user_attendance[user_id]` (present or not). -/
def lookupCache (cache : List (String × Option String)) (u : String) : Option (Option String) :=
  (cache.find? (fun p => p.1 == u)).map (fun p => p.2)

/-- Lines 1216-1223: append to `payload_batch` when the dedup test passes,
and always append the row id to `record_id_batch`. -/
def accumulate (st : SyncSt) (att : AttRow) (mid : Nat) (tts : String)
    (c : Option String) : SyncSt :=
  let st1 := if includeRecord c tts then
      { st with payload := st.payload ++ [⟨att.user_id, tts, mid, att.att_id⟩] }
    else st
  { st1 with ids := st1.ids ++ [att.id] }

/-- Lines 1225-1237, the mid-loop flush: if `payload_batch` is nonempty issue a
`create` call; then (only reached when no exception) sample `now_str`, run the
`UPDATE ... WHERE id IN record_id_batch`, bump `synced_count` and clear both
batches. An exception in `create` skips all of that (the batches are NOT
cleared: the clears sit inside the `try`). -/
def flushMid (rm : Remote) (st : SyncSt) : SyncSt :=
  if st.payload.isEmpty then
    { st with
        updates := st.updates ++ [(st.ids, rm.flushTime st.updates.length)],
        syncedCount := st.syncedCount + st.payload.length,
        payload := [], ids := [] }
  else if rm.createOk st.calls then
    { st with
        sent := st.sent ++ [st.payload],
        calls := st.calls + 1,
        updates := st.updates ++ [(st.ids, rm.flushTime st.updates.length)],
        syncedCount := st.syncedCount + st.payload.length,
        payload := [], ids := [] }
  else
    { st with sent := st.sent ++ [st.payload], calls := st.calls + 1 }

/-- Lines 1240-1249, the final flush (same logic; the code never clears the
batches here because the loop is over). -/
def flushFinal (rm : Remote) (st : SyncSt) : SyncSt :=
  if st.payload.isEmpty then
    { st with
        updates := st.updates ++ [(st.ids, rm.flushTime st.updates.length)],
        syncedCount := st.syncedCount + st.payload.length }
  else if rm.createOk st.calls then
    { st with
        sent := st.sent ++ [st.payload],
        calls := st.calls + 1,
        updates := st.updates ++ [(st.ids, rm.flushTime st.updates.length)],
        syncedCount := st.syncedCount + st.payload.length }
  else
    { st with sent := st.sent ++ [st.payload], calls := st.calls + 1 }

/-- Lines 1216-1237: accumulate one decided record, then flush when
`len(record_id_batch) >= batch_size`. -/
def dedupStep (bs : Nat) (rm : Remote) (st : SyncSt) (att : AttRow) (mid : Nat)
    (tts : String) (c : Option String) : SyncSt :=
  let st1 := accumulate st att mid tts c
  if bs ≤ st1.ids.length then flushMid rm st1 else st1

/-- Lines 1182-1237, one iteration of `for att in unsynced_attendance`:
skip when the machine is not linked (falsy `odoo_machine_id`); compute the
timestamp to send; populate `last_user_attendance[user_id]` on first
encounter via `search_read` (a raise there propagates: `.error`, aborting the
pass); then dedup-accumulate and maybe flush. -/
def processRecord (bs : Nat) (rm : Remote) (conv : String → String → Option String)
    (st : SyncSt) (att : AttRow) : Except SyncSt SyncSt :=
  match att.odoo_machine_id with
  | none => .ok st
  | some mid =>
    if mid = 0 then .ok st
    else
      let tts := timestampToSend conv att
      match lookupCache st.cache att.user_id with
      | some c => .ok (dedupStep bs rm st att mid tts c)
      | none =>
        match rm.latest att.user_id mid with
        | .error _ => .error st
        | .ok r =>
          .ok (dedupStep bs rm { st with cache := st.cache ++ [(att.user_id, r)] }
                att mid tts r)

/-- Lines 1182-1249: the whole attendance part of one sync pass.
`.error st` means an uncaught exception reached the pass-level handler at
line 1258 with the loop state `st` (its `updates` are the database writes
that did happen). -/
def syncAttendance (bs : Nat) (rm : Remote) (conv : String → String → Option String)
    (rows : List AttRow) : Except SyncSt SyncSt :=
  match rows.foldlM (processRecord bs rm conv) initSt with
  | .error st => .error st
  | .ok st => .ok (if st.ids.isEmpty then st else flushFinal rm st)

/-- Effect of the recorded `UPDATE attendance SET synched_time = ? WHERE id IN (...)`
statements on the attendance table. -/
def applyUpdates (rows : List AttRow) (ups : List (List Nat × String)) : List AttRow :=
  ups.foldl
    (fun rs u => rs.map (fun r =>
      if r.id ∈ u.1 then { r with synched_time := some u.2 } else r)) rows

/-! ## pytz timezone conversion model (lines 1187-1199)

A timezone is modelled by the set of possible UTC offsets (in seconds) that a
naive wall-clock time (in seconds) can stand for: one offset normally, two at
a DST fall-back (ambiguous), zero at a spring-forward gap (non-existent). -/

structure TzRules where
  offsets : Int → List Int

/-- `pytz.timezone(z).localize(naive, is_dst=None)` followed by
`astimezone(pytz.utc)`: with `is_dst=None` pytz raises `AmbiguousTimeError`
on an ambiguous wall time and `NonExistentTimeError` on a non-existent one;
only a uniquely-determined offset converts, to `naive - offset`. -/
def localizeConvert (tz : TzRules) (naive : Int) : Option Int :=
  match tz.offsets naive with
  | [o] => some (naive - o)
  | _ => none

/-- Lines 1189-1199 on the seconds representation: no (or falsy) timezone
sends the naive value; an unknown timezone name raises (caught: naive); a
raise inside localize/convert is caught too (naive). -/
def computeTimestampToSend (tzdb : String → Option TzRules) (mtz : Option String)
    (naive : Int) : Int :=
  match mtz with
  | none => naive
  | some z =>
    if z = "" then naive
    else
      match tzdb z with
      | none => naive
      | some tz =>
        match localizeConvert tz naive with
        | some u => u
        | none => naive

/-- Modelled from the spec: resolving a daylight-saving ambiguity "using the
later offset convention", i.e. choosing the later UTC instant, which is
`naive` minus the smallest available offset. For comparison with
`computeTimestampToSend` only. -/
def specResolveLaterUtc (tz : TzRules) (naive : Int) : Option Int :=
  match tz.offsets naive with
  | [] => none
  | o :: os => some (naive - os.foldl min o)

/-- A concrete timezone with a DST fall-back at wall time 100: that wall time
stands for UTC offset 7200 (DST) or 3600 (standard). -/
def ambTz : TzRules := ⟨fun n => if n = 100 then [7200, 3600] else [3600]⟩

def ambTzdb : String → Option TzRules := fun z => if z = "AmbLand" then some ambTz else none

/-! ## Fetch model (`_fetch_data_for_machine`, lines 916-976)

Naive device timestamps are modelled as seconds on a linear timeline
(one day = 86400 s); `replace(hour=0, minute=0, second=0, microsecond=0)`
is truncation to the enclosing day boundary and `timedelta(days=n)` is
`n * 86400`. -/

structure DevEvent where
  user_id : String
  timestamp : Int
  deriving DecidableEq, Repr

/-- One row of the `attendance` table (UNIQUE(connection_id, user_id, timestamp)). -/
structure StoredAtt where
  connection_id : Nat
  user_id : String
  att_id : String
  timestamp : Int
  synched_time : Option String
  deriving DecidableEq, Repr

def keyOf (a : StoredAtt) : Nat × String × Int := (a.connection_id, a.user_id, a.timestamp)

def hasKey (store : List StoredAtt) (k : Nat × String × Int) : Prop := ∃ s ∈ store, keyOf s = k

/-- `INSERT OR IGNORE INTO attendance ...` (line 954): a row whose composite
key is already present is silently dropped; otherwise it is appended. -/
def insertOrIgnore (store : List StoredAtt) (r : StoredAtt) : List StoredAtt :=
  if store.any (fun s => decide (keyOf s = keyOf r)) then store else store ++ [r]

/-- `SELECT MAX(timestamp) FROM attendance WHERE connection_id = ?` (line 918). -/
def maxTs : List StoredAtt → Nat → Option Int
  | [], _ => none
  | s :: rest, connId =>
    if s.connection_id = connId then
      match maxTs rest connId with
      | none => some s.timestamp
      | some v => some (max v s.timestamp)
    else maxTs rest connId

/-- Combination of two SQL MAX aggregates. -/
def optMax : Option Int → Option Int → Option Int
  | none, m => m
  | some v, none => some v
  | some v, some w => some (max v w)

/-- `date_from.replace(hour=0, minute=0, second=0, microsecond=0)` (line 930). -/
def dayStart (t : Int) : Int := t - t % 86400

/-- Lines 918-930: the fetch watermark is the stored maximum, or
`now - days_back days` when none exists, truncated to its day start. -/
def fetchWatermark (storedMax : Option Int) (now : Int) (daysBack : Nat) : Int :=
  dayStart (match storedMax with
    | some t => t
    | none => now - (daysBack : Int) * 86400)

/-- Line 950: `[att for att in all if att.timestamp > date_from and att.timestamp <= now]`. -/
def retainEvents (events : List DevEvent) (wm now : Int) : List DevEvent :=
  events.filter (fun e => decide (wm < e.timestamp) && decide (e.timestamp ≤ now))

/-- Line 958: the synthetic identifier derived from machine, user and timestamp. -/
def mkAttId (connId : Nat) (uid : String) (ts : Int) : String :=
  toString connId ++ "-" ++ uid ++ "-" ++ toString ts

def mkRow (connId : Nat) (e : DevEvent) : StoredAtt :=
  ⟨connId, e.user_id, mkAttId connId e.user_id e.timestamp, e.timestamp, none⟩

/-- Lines 953-961: insert each retained event with insert-ignore semantics. -/
def insertEvents (store : List StoredAtt) (connId : Nat) (evs : List DevEvent) :
    List StoredAtt :=
  evs.foldl (fun st e => insertOrIgnore st (mkRow connId e)) store

/-- Lines 916-961: the attendance-ingestion part of one fetch for one machine. -/
def fetchMachine (store : List StoredAtt) (connId : Nat) (daysBack : Nat) (now : Int)
    (events : List DevEvent) : List StoredAtt :=
  let wm := fetchWatermark (maxTs store connId) now daysBack
  insertEvents store connId (retainEvents events wm now)

/-- The schema invariant UNIQUE(connection_id, user_id, timestamp) (line 95). -/
def uniqueKeys (store : List StoredAtt) : Prop :=
  store.Pairwise (fun a b => keyOf a ≠ keyOf b)

structure FetchCall where
  connId : Nat
  daysBack : Nat
  now : Int
  events : List DevEvent

def runFetches (store : List StoredAtt) (calls : List FetchCall) : List StoredAtt :=
  calls.foldl (fun st c => fetchMachine st c.connId c.daysBack c.now c.events) store

/-! ## User upsert model (lines 940-943) -/

/-- One row of the `users` table (UNIQUE(connection_id, user_id)). -/
structure UserRow where
  connection_id : Nat
  uid : Nat
  user_id : String
  name : String
  synched_time : Option String
  deriving DecidableEq, Repr

def userKeyMatch (connId : Nat) (userId : String) (u : UserRow) : Bool :=
  u.connection_id == connId && u.user_id == userId

/-- Line 940: `INSERT OR REPLACE INTO users (connection_id, uid, user_id, name,
synched_time) VALUES (?, ?, ?, ?, (SELECT synched_time FROM users WHERE
connection_id=? AND user_id=?))`. SQLite evaluates the scalar subselect (the
old row's `synched_time`, or NULL if absent), deletes the conflicting row and
inserts the replacement. -/
def upsertUser (store : List UserRow) (connId uidv : Nat) (userId nm : String) :
    List UserRow :=
  let preserved := match store.find? (userKeyMatch connId userId) with
    | some u => u.synched_time
    | none => none
  store.filter (fun u => !(userKeyMatch connId userId u)) ++
    [⟨connId, uidv, userId, nm, preserved⟩]

def findUser (store : List UserRow) (connId : Nat) (userId : String) : Option UserRow :=
  store.find? (userKeyMatch connId userId)

def uniqueUserKeys (store : List UserRow) : Prop :=
  store.Pairwise (fun a b => ¬(a.connection_id = b.connection_id ∧ a.user_id = b.user_id))

/-! ## "%Y-%m-%d %H:%M:%S" rendering (lines 897, 959, 1158, 1194, 1229, ...) -/

structure DT where
  year : Nat
  month : Nat
  day : Nat
  hour : Nat
  minute : Nat
  second : Nat
  deriving DecidableEq, Repr

def DTvalid (d : DT) : Prop :=
  1000 ≤ d.year ∧ d.year ≤ 9999 ∧ 1 ≤ d.month ∧ d.month ≤ 12 ∧ 1 ≤ d.day ∧
    d.day ≤ 31 ∧ d.hour ≤ 23 ∧ d.minute ≤ 59 ∧ d.second ≤ 59

instance (d : DT) : Decidable (DTvalid d) := by unfold DTvalid; infer_instance

def dchar : Nat → Char
  | 0 => '0'
  | 1 => '1'
  | 2 => '2'
  | 3 => '3'
  | 4 => '4'
  | 5 => '5'
  | 6 => '6'
  | 7 => '7'
  | 8 => '8'
  | _ => '9'

def pad2 (n : Nat) : List Char := [dchar (n / 10), dchar (n % 10)]

def pad4 (n : Nat) : List Char :=
  [dchar (n / 1000), dchar (n / 100 % 10), dchar (n / 10 % 10), dchar (n % 10)]

/-- Digit-sequence comparison used to relate `charListLt` on zero-padded
numerals to numeric order. -/
def natListLt : List Nat → List Nat → Bool
  | [], [] => false
  | [], _ :: _ => true
  | _ :: _, [] => false
  | a :: as, b :: bs => if a < b then true else if b < a then false else natListLt as bs

/-- `strftime("%Y-%m-%d %H:%M:%S")` as a character list. -/
def fmtList (d : DT) : List Char :=
  pad4 d.year ++ '-' :: (pad2 d.month ++ '-' :: (pad2 d.day ++ ' ' ::
    (pad2 d.hour ++ ':' :: (pad2 d.minute ++ ':' :: pad2 d.second))))

def fmt (d : DT) : String := String.mk (fmtList d)

/-- Chronological order on rendered datetime fields. -/
def chronoLt (a b : DT) : Prop :=
  a.year < b.year ∨ (a.year = b.year ∧ (a.month < b.month ∨ (a.month = b.month ∧
    (a.day < b.day ∨ (a.day = b.day ∧ (a.hour < b.hour ∨ (a.hour = b.hour ∧
    (a.minute < b.minute ∨ (a.minute = b.minute ∧ a.second < b.second)))))))))

instance (a b : DT) : Decidable (chronoLt a b) := by unfold chronoLt; infer_instance

/-! ## Concrete scenarios used by individual claims -/

def noConv : String → String → Option String := fun _ _ => none

/-- C1 scenario: remote already holds 08:00:00 for user 42; local rows at
08:00:00 and 08:00:01. -/
def scen1Row1 : AttRow :=
  ⟨1, 5, "42", "5-42-20240601080000", "2024-06-01 08:00:00", none, some 7, none⟩

def scen1Row2 : AttRow :=
  ⟨2, 5, "42", "5-42-20240601080001", "2024-06-01 08:00:01", none, some 7, none⟩

def scen1Rm : Remote :=
  ⟨fun _ _ => .ok (some "2024-06-01 08:00:00"), fun _ => true, fun _ => "2024-06-01 09:00:00"⟩

def scen1Out : SyncSt :=
  match syncAttendance 1000 scen1Rm noConv [scen1Row1, scen1Row2] with
  | .ok st => st
  | .error st => st

/-- C5 scenario: batch_size 1, first create call fails, second succeeds. -/
def scen5Row1 : AttRow := ⟨1, 5, "u", "a1", "2024-06-01 08:00:00", none, some 7, none⟩

def scen5Row2 : AttRow := ⟨2, 5, "u", "a2", "2024-06-01 08:00:01", none, some 7, none⟩

def scen5Rm : Remote :=
  ⟨fun _ _ => .ok none, fun n => n != 0, fun _ => "2024-06-01 09:00:00"⟩

def scen5Out : SyncSt :=
  match syncAttendance 1 scen5Rm noConv [scen5Row1, scen5Row2] with
  | .ok st => st
  | .error st => st

def scen5P1 : Payload := ⟨"u", "2024-06-01 08:00:00", 7, "a1"⟩

def scen5P2 : Payload := ⟨"u", "2024-06-01 08:00:01", 7, "a2"⟩

/-- C6 scenario: the remote read for user "a" raises; user "b" would be fine. -/
def scen6Rm : Remote :=
  ⟨fun u _ => if u = "a" then .error () else .ok none, fun _ => true, fun _ => "t6"⟩

def scen6Row1 : AttRow := ⟨1, 5, "a", "a1", "2024-06-01 08:00:00", none, some 7, none⟩

def scen6Row2 : AttRow := ⟨2, 5, "b", "a2", "2024-06-01 08:00:01", none, some 7, none⟩

def scen6Res : Except SyncSt SyncSt :=
  syncAttendance 1000 scen6Rm noConv [scen6Row1, scen6Row2]

def scen6Aborted : Bool := match scen6Res with | .error _ => true | .ok _ => false

def scen6St : SyncSt := match scen6Res with | .error st => st | .ok st => st

/-- C9 scenario: the same business user id on two machines whose remote-latest
timestamps differ completely. -/
def scen9Row1 : AttRow := ⟨1, 5, "u", "a1", "2024-06-01 08:00:00", none, some 1, none⟩

def scen9Row2 : AttRow := ⟨2, 6, "u", "a2", "2024-06-01 08:00:01", none, some 2, none⟩

def scen9Rm : Remote :=
  ⟨fun _ m => if m = 1 then .ok none else .ok (some "9999-12-31 23:59:59"),
    fun _ => true, fun _ => "t9"⟩

def scen9Out : SyncSt :=
  match syncAttendance 1000 scen9Rm noConv [scen9Row1, scen9Row2] with
  | .ok st => st
  | .error st => st

def scen9P1 : Payload := ⟨"u", "2024-06-01 08:00:00", 1, "a1"⟩

def scen9P2 : Payload := ⟨"u", "2024-06-01 08:00:01", 2, "a2"⟩

/-- Two concrete valid datetimes for witnesses. -/
def dtA : DT := ⟨2024, 6, 1, 8, 0, 0⟩

def dtB : DT := ⟨2024, 6, 1, 8, 0, 1⟩

/-- C2 witness fixtures: a batch state about to flush, and a remote whose
create call succeeds. -/
def wP2 : Payload := ⟨"w", "2024-06-01 08:00:00", 7, "w1"⟩

def wSt2 : SyncSt := ⟨[], [wP2], [1, 2], [], [], 0, 0⟩

def wRm2 : Remote := ⟨fun _ _ => .ok none, fun _ => true, fun _ => "tw2"⟩

def wRow1 : AttRow := ⟨1, 5, "w", "w1", "2024-06-01 08:00:00", none, some 7, none⟩

def wRow2 : AttRow := ⟨2, 5, "w", "w2", "2024-06-01 08:00:01", none, some 7, none⟩

/-- C5 witness fixtures: a batch state about to flush, and a remote whose
create call fails. -/
def wSt5 : SyncSt := ⟨[], [wP2], [1], [], [], 0, 0⟩

def wRm5 : Remote := ⟨fun _ _ => .ok none, fun _ => false, fun _ => "tw5"⟩

/-- C3 witness fixtures: one stored row and one device event. -/
def wStore3 : List StoredAtt := [⟨1, "u", "x", 100000, none⟩]

def wEv3 : DevEvent := ⟨"u", 100100⟩

/-- C7 witness fixtures. -/
def wRow7 : StoredAtt := ⟨1, "u", "x", 50, none⟩

def wCall7 : FetchCall := ⟨1, 2, 200000, [⟨"u", 150000⟩]⟩

/-- C8 witness fixture: one stored user with a non-null watermark. -/
def wUser8 : UserRow := ⟨1, 2, "u", "old", some "2024-01-01 00:00:00"⟩

/-! ## Helper lemmas -/

theorem payload_isEmpty_false {st : SyncSt} (hp : st.payload ≠ []) :
    st.payload.isEmpty = false := by
  cases h : st.payload with
  | nil => exact absurd h hp
  | cons a l => rfl

theorem foldlM_except_append (f : SyncSt → AttRow → Except SyncSt SyncSt)
    (l1 l2 : List AttRow) (b : SyncSt) :
    (l1 ++ l2).foldlM f b = (l1.foldlM f b).bind fun x => l2.foldlM f x := by
  induction l1 generalizing b with
  | nil => rfl
  | cons a l ih =>
    simp only [List.cons_append, List.foldlM_cons]
    cases h : f b a with
    | error e => rfl
    | ok x =>
      show (l ++ l2).foldlM f x = (Except.bind (Except.ok x) fun y => l.foldlM f y).bind _
      rw [show (Except.bind (Except.ok x) fun y => l.foldlM f y) = l.foldlM f x from rfl]
      exact ih x

theorem flushMid_congr (rm rm2 : Remote) (hc : rm2.createOk = rm.createOk)
    (ht : rm2.flushTime = rm.flushTime) (st : SyncSt) :
    flushMid rm2 st = flushMid rm st := by
  simp [flushMid, hc, ht]

theorem dedupStep_congr (rm rm2 : Remote) (hc : rm2.createOk = rm.createOk)
    (ht : rm2.flushTime = rm.flushTime) (bs : Nat) (st : SyncSt) (att : AttRow)
    (mid : Nat) (tts : String) (c : Option String) :
    dedupStep bs rm2 st att mid tts c = dedupStep bs rm st att mid tts c := by
  simp [dedupStep, flushMid_congr rm rm2 hc ht]

/-! ## Claim theorems -/

/-- C1: in the attendance dedup step, a record whose computed timestamp is not
strictly greater than the cached remote-latest timestamp for its user is
excluded from the outgoing payload batch but its id is still appended to the
to-mark-synced batch; otherwise it is appended to the outgoing batch, and in
both cases the id is appended. In the scenario where the remote already holds
time T for the user and the local rows are at T and T+1, the single create
call carries only the T+1 record while both row ids are marked synced. -/
theorem C1_dedup_disposition (st : SyncSt) (att : AttRow) (mid : Nat) (T tts : String)
    (hT : T ≠ "") :
    (pyStrLt T tts = false →
        accumulate st att mid tts (some T) = { st with ids := st.ids ++ [att.id] })
    ∧ (pyStrLt T tts = true → accumulate st att mid tts (some T) =
        { st with payload := st.payload ++ [⟨att.user_id, tts, mid, att.att_id⟩],
                  ids := st.ids ++ [att.id] })
    ∧ scen1Out.sent = [[⟨"42", "2024-06-01 08:00:01", 7, "5-42-20240601080001"⟩]]
    ∧ scen1Out.updates = [([1, 2], "2024-06-01 09:00:00")] := by
  refine ⟨?_, ?_, by decide, by decide⟩
  · intro hlt
    have h : includeRecord (some T) tts = false := by
      simp [includeRecord, hT, hlt]
    simp [accumulate, h]
  · intro hlt
    have h : includeRecord (some T) tts = true := by
      simp [includeRecord, hlt]
    simp [accumulate, h]

theorem C1_dedup_disposition_witness :
    accumulate initSt scen1Row1 7 "2024-06-01 08:00:00" (some "2024-06-01 08:00:00")
      = { initSt with ids := initSt.ids ++ [scen1Row1.id] } :=
  (C1_dedup_disposition initSt scen1Row1 7 "2024-06-01 08:00:00" "2024-06-01 08:00:00"
    (by decide)).1 (by decide)

/-- C2: for a batch flush (mid-loop or final), a failing create call writes no
`synched_time` at all, while a successful (or skipped-because-empty) create
call writes one single timestamp to every accumulated row id — including rows
that were dedup-excluded from the outgoing payload. -/
theorem C2_batch_failure_or_success (rm : Remote) (st : SyncSt) (rows : List AttRow) :
    (st.payload ≠ [] → rm.createOk st.calls = false →
      (flushMid rm st).updates = st.updates ∧ (flushFinal rm st).updates = st.updates)
    ∧ (rm.createOk st.calls = true ∨ st.payload = [] →
      ∃ t, (flushMid rm st).updates = st.updates ++ [(st.ids, t)]
        ∧ (flushFinal rm st).updates = st.updates ++ [(st.ids, t)]
        ∧ ∀ r ∈ applyUpdates rows [(st.ids, t)], r.id ∈ st.ids → r.synched_time = some t) := by
  constructor
  · intro hp hc
    constructor
    · simp [flushMid, payload_isEmpty_false hp, hc]
    · simp [flushFinal, payload_isEmpty_false hp, hc]
  · intro h
    refine ⟨rm.flushTime st.updates.length, ?_, ?_, ?_⟩
    · rcases h with hc | hp
      · by_cases hpe : st.payload.isEmpty <;> simp [flushMid, hpe, hc]
      · simp [flushMid, hp]
    · rcases h with hc | hp
      · by_cases hpe : st.payload.isEmpty <;> simp [flushFinal, hpe, hc]
      · simp [flushFinal, hp]
    · intro r hr hid
      have he : applyUpdates rows [(st.ids, rm.flushTime st.updates.length)] =
          rows.map (fun a => if a.id ∈ st.ids then
            { a with synched_time := some (rm.flushTime st.updates.length) } else a) := rfl
      rw [he] at hr
      obtain ⟨a, _, rfl⟩ := List.mem_map.mp hr
      by_cases hm : a.id ∈ st.ids
      · simp [hm]
      · simp only [if_neg hm] at hid ⊢
        exact absurd hid hm

theorem C2_batch_failure_or_success_witness :
    ∃ t, (flushMid wRm2 wSt2).updates = wSt2.updates ++ [(wSt2.ids, t)]
      ∧ (flushFinal wRm2 wSt2).updates = wSt2.updates ++ [(wSt2.ids, t)]
      ∧ ∀ r ∈ applyUpdates [wRow1, wRow2] [(wSt2.ids, t)],
          r.id ∈ wSt2.ids → r.synched_time = some t :=
  (C2_batch_failure_or_success wRm2 wSt2 [wRow1, wRow2]).2 (Or.inl rfl)

/-- C4 counterexample: at the concrete ambiguous wall time 100 of `ambTz`
(offsets 7200 and 3600), the code sends the naive value 100 unchanged, whereas
resolving the ambiguity by the later UTC instant would send 100 - 3600. -/
theorem C4_counterexample :
    computeTimestampToSend ambTzdb (some "AmbLand") 100 = 100
    ∧ specResolveLaterUtc ambTz 100 = some (100 - 3600)
    ∧ (100 : Int) ≠ 100 - 3600 := by
  refine ⟨rfl, rfl, by decide⟩

/-- C4 (amended): with no configured timezone the naive timestamp is sent
unchanged; with a configured valid timezone an unambiguous wall time is
converted to UTC by subtracting its unique offset; an ambiguous or
non-existent wall time makes `localize(is_dst=None)` raise, which is caught,
and the naive timestamp is sent unchanged; an unknown timezone name likewise
falls back to the naive timestamp. -/
theorem C4_amended_tz_conversion (tzdb : String → Option TzRules) (z : String)
    (tz : TzRules) (naive o : Int) :
    computeTimestampToSend tzdb none naive = naive
    ∧ (z ≠ "" → tzdb z = some tz → tz.offsets naive = [o] →
        computeTimestampToSend tzdb (some z) naive = naive - o)
    ∧ (z ≠ "" → tzdb z = some tz → (tz.offsets naive).length ≠ 1 →
        computeTimestampToSend tzdb (some z) naive = naive)
    ∧ (z ≠ "" → tzdb z = none → computeTimestampToSend tzdb (some z) naive = naive) := by
  refine ⟨rfl, ?_, ?_, ?_⟩
  · intro hz htz hoff
    simp [computeTimestampToSend, hz, htz, localizeConvert, hoff]
  · intro hz htz hlen
    simp only [computeTimestampToSend, if_neg hz, htz]
    cases hoffs : tz.offsets naive with
    | nil => simp [localizeConvert, hoffs]
    | cons o1 os =>
      cases os with
      | nil => rw [hoffs] at hlen; simp at hlen
      | cons o2 os2 => simp [localizeConvert, hoffs]
  · intro hz htz
    simp [computeTimestampToSend, hz, htz]

theorem C4_amended_tz_conversion_witness :
    computeTimestampToSend ambTzdb none 100 = 100
    ∧ computeTimestampToSend ambTzdb (some "AmbLand") 200 = 200 - 3600
    ∧ computeTimestampToSend ambTzdb (some "AmbLand") 100 = 100
    ∧ computeTimestampToSend ambTzdb (some "Nowhere") 100 = 100 := by
  refine ⟨(C4_amended_tz_conversion ambTzdb "AmbLand" ambTz 100 3600).1, ?_, ?_, ?_⟩
  · exact (C4_amended_tz_conversion ambTzdb "AmbLand" ambTz 200 3600).2.1
      (by decide) rfl rfl
  · exact (C4_amended_tz_conversion ambTzdb "AmbLand" ambTz 100 0).2.2.1
      (by decide) rfl (by decide)
  · exact (C4_amended_tz_conversion ambTzdb "Nowhere" ambTz 100 0).2.2.2
      (by decide) rfl

/-- C5 counterexample: with `batch_size = 1`, two eligible records, the first
create call failing and the second succeeding, the second create call re-sends
the first record's payload within the same pass (`sent` is
`[[p1], [p1, p2]]`, not the `[[p1], [p2]]` a discarded-batch reading
predicts), and the first record's id is marked synced within the same pass. -/
theorem C5_counterexample :
    scen5Out.sent = [[scen5P1], [scen5P1, scen5P2]]
    ∧ scen5Out.updates = [([1, 2], "2024-06-01 09:00:00")]
    ∧ scen5Out.sent ≠ [[scen5P1], [scen5P2]] := by decide

/-- C5 (amended): when a create call for a batch fails, no `synched_time` is
written and the in-memory batches are NOT cleared — the accumulated payload
and ids are retained, so accumulation continues into the same batch and the
failed payload is re-sent at the next flush within the same pass; only ids
still unflushed when the pass ends are left for the next pass. -/
theorem C5_amended_failed_batch_retained (rm : Remote) (st : SyncSt)
    (hp : st.payload ≠ []) (hf : rm.createOk st.calls = false) :
    flushMid rm st = { st with sent := st.sent ++ [st.payload], calls := st.calls + 1 }
    ∧ flushFinal rm st = { st with sent := st.sent ++ [st.payload], calls := st.calls + 1 }
    ∧ (flushMid rm st).updates = st.updates
    ∧ (flushMid rm st).payload = st.payload
    ∧ (flushMid rm st).ids = st.ids := by
  have hpe := payload_isEmpty_false hp
  refine ⟨?_, ?_, ?_, ?_, ?_⟩ <;> simp [flushMid, flushFinal, hpe, hf]

theorem C5_amended_failed_batch_retained_witness :
    flushMid wRm5 wSt5 = { wSt5 with sent := wSt5.sent ++ [wSt5.payload],
                                     calls := wSt5.calls + 1 }
    ∧ flushFinal wRm5 wSt5 = { wSt5 with sent := wSt5.sent ++ [wSt5.payload],
                                         calls := wSt5.calls + 1 }
    ∧ (flushMid wRm5 wSt5).updates = wSt5.updates
    ∧ (flushMid wRm5 wSt5).payload = wSt5.payload
    ∧ (flushMid wRm5 wSt5).ids = wSt5.ids :=
  C5_amended_failed_batch_retained wRm5 wSt5 (by decide) rfl

/-- C6 counterexample: when the per-record `search_read` populating the dedup
cache raises for the first record, the whole attendance sync pass aborts (the
exception reaches the pass-level handler): nothing is written and nothing is
sent, even though the second record's machine is linked and would have been
processed — the pass does not continue with subsequent records. -/
theorem C6_counterexample :
    scen6Aborted = true ∧ scen6St.updates = [] ∧ scen6St.sent = []
    ∧ scen6Row2.odoo_machine_id = some 7 := by decide

/-- C6 (amended): a remote-read failure while lazily populating the dedup
cache is not caught per-record; it propagates out of the loop and aborts the
attendance sync pass at that record. Database writes of earlier successful
flushes persist, but the failing record is not included anywhere, the current
unflushed batch is not marked, and no subsequent record is processed. -/
theorem C6_amended_read_failure_aborts_pass (bs : Nat) (rm : Remote)
    (conv : String → String → Option String) (pre post : List AttRow) (att : AttRow)
    (st : SyncSt) (mid : Nat)
    (hfold : pre.foldlM (processRecord bs rm conv) initSt = Except.ok st)
    (hm : att.odoo_machine_id = some mid) (h0 : mid ≠ 0)
    (hc : lookupCache st.cache att.user_id = none)
    (he : rm.latest att.user_id mid = .error ()) :
    syncAttendance bs rm conv (pre ++ att :: post) = .error st := by
  have hstep : processRecord bs rm conv st att = .error st := by
    simp [processRecord, hm, h0, hc, he]
  unfold syncAttendance
  rw [foldlM_except_append, hfold]
  rw [show (Except.ok st).bind
        (fun x => (att :: post).foldlM (processRecord bs rm conv) x)
      = (att :: post).foldlM (processRecord bs rm conv) st from rfl]
  rw [List.foldlM_cons, hstep]
  rfl

theorem C6_amended_read_failure_aborts_pass_witness :
    syncAttendance 1000 scen6Rm noConv ([] ++ scen6Row1 :: [scen6Row2])
      = .error initSt :=
  C6_amended_read_failure_aborts_pass 1000 scen6Rm noConv [] [scen6Row2] scen6Row1
    initSt 7 rfl rfl (by decide) rfl rfl

/-- C9 counterexample: two unsynced records share the business user id "u" but
sit on machines 1 and 2; machine 1 has no remote attendance for "u" while
machine 2's remote-latest is far in the future. The second record's dedup
comparison reuses the cache entry populated from machine 1 (keyed by user id
only), so it is included in the outgoing batch even though machine 2's own
remote-latest timestamp is not smaller — the comparison did not use the
record's own machine. -/
theorem C9_counterexample :
    scen9Out.sent = [[scen9P1, scen9P2]]
    ∧ scen9Out.updates = [([1, 2], "t9")]
    ∧ pyStrLt "9999-12-31 23:59:59" "2024-06-01 08:00:01" = false := by decide

/-- C9 (amended): the per-run dedup cache is keyed by business user id only.
It is populated lazily on a user's first encounter by one remote read against
that first record's machine; any later record with the same user id — on any
machine — reuses the cached value and triggers no further remote read. -/
theorem C9_amended_cache_keyed_by_user (bs : Nat) (rm rm2 : Remote)
    (conv : String → String → Option String) (st : SyncSt) (att : AttRow) (mid : Nat)
    (hm : att.odoo_machine_id = some mid) (h0 : mid ≠ 0) :
    (∀ c, lookupCache st.cache att.user_id = some c →
        processRecord bs rm conv st att
          = .ok (dedupStep bs rm st att mid (timestampToSend conv att) c))
    ∧ (∀ c, lookupCache st.cache att.user_id = some c →
        rm2.createOk = rm.createOk → rm2.flushTime = rm.flushTime →
        processRecord bs rm2 conv st att = processRecord bs rm conv st att)
    ∧ (∀ r, lookupCache st.cache att.user_id = none → rm.latest att.user_id mid = .ok r →
        processRecord bs rm conv st att
          = .ok (dedupStep bs rm { st with cache := st.cache ++ [(att.user_id, r)] }
              att mid (timestampToSend conv att) r)) := by
  refine ⟨?_, ?_, ?_⟩
  · intro c hc
    simp [processRecord, hm, h0, hc]
  · intro c hcache hc ht
    simp [processRecord, hm, h0, hcache, dedupStep_congr rm rm2 hc ht]
  · intro r hc hr
    simp [processRecord, hm, h0, hc, hr]

theorem C9_amended_cache_keyed_by_user_witness :
    processRecord 1000 scen9Rm noConv
        { initSt with cache := [("u", none)] } scen9Row2
      = .ok (dedupStep 1000 scen9Rm { initSt with cache := [("u", none)] } scen9Row2 2
          (timestampToSend noConv scen9Row2) none) :=
  (C9_amended_cache_keyed_by_user 1000 scen9Rm scen9Rm noConv
    { initSt with cache := [("u", none)] } scen9Row2 2 rfl (by decide)).1 none rfl

/-! ## Fetch helper lemmas -/

theorem dayStart_le (t : Int) : dayStart t ≤ t := by unfold dayStart; omega

theorem dayStart_mod (t : Int) : dayStart t % 86400 = 0 := by unfold dayStart; omega

theorem lt_dayStart_add (t : Int) : t < dayStart t + 86400 := by unfold dayStart; omega

theorem dayStart_mono {a b : Int} (h : a ≤ b) : dayStart a ≤ dayStart b := by
  unfold dayStart; omega

theorem aligned_le_dayStart {w t : Int} (hw : w % 86400 = 0) (h : w ≤ t) :
    w ≤ dayStart t := by
  unfold dayStart; omega

theorem mem_retainEvents (events : List DevEvent) (wm now : Int) (e : DevEvent) :
    e ∈ retainEvents events wm now ↔
      e ∈ events ∧ wm < e.timestamp ∧ e.timestamp ≤ now := by
  simp [retainEvents, List.mem_filter, and_assoc]

theorem maxTs_none (store : List StoredAtt) (connId : Nat)
    (h : maxTs store connId = none) : ∀ s ∈ store, s.connection_id ≠ connId := by
  induction store with
  | nil => intro s hs; simp at hs
  | cons a rest ih =>
    intro s hs
    simp only [maxTs] at h
    by_cases ha : a.connection_id = connId
    · rw [if_pos ha] at h
      cases hrest : maxTs rest connId with
      | none => simp [hrest] at h
      | some v => simp [hrest] at h
    · rw [if_neg ha] at h
      cases hs with
      | head => exact ha
      | tail _ hmem => exact ih h s hmem

theorem maxTs_le (store : List StoredAtt) (connId : Nat) :
    ∀ m, maxTs store connId = some m →
      ∀ s ∈ store, s.connection_id = connId → s.timestamp ≤ m := by
  induction store with
  | nil => intro m _ s hs; simp at hs
  | cons a rest ih =>
    intro m h s hs hc
    simp only [maxTs] at h
    by_cases ha : a.connection_id = connId
    · rw [if_pos ha] at h
      cases hrest : maxTs rest connId with
      | none =>
        rw [hrest] at h
        injection h with h
        cases hs with
        | head => omega
        | tail _ hmem => exact absurd hc (maxTs_none rest connId hrest s hmem)
      | some v =>
        rw [hrest] at h
        injection h with h
        cases hs with
        | head => rw [← h]; exact le_max_right v a.timestamp
        | tail _ hmem =>
          have := ih v hrest s hmem hc
          rw [← h]
          exact le_trans this (le_max_left v a.timestamp)
    · rw [if_neg ha] at h
      cases hs with
      | head => exact absurd hc ha
      | tail _ hmem => exact ih m h s hmem hc

theorem maxTs_mem (store : List StoredAtt) (connId : Nat) :
    ∀ m, maxTs store connId = some m →
      ∃ s ∈ store, s.connection_id = connId ∧ s.timestamp = m := by
  induction store with
  | nil => intro m h; simp [maxTs] at h
  | cons a rest ih =>
    intro m h
    simp only [maxTs] at h
    by_cases ha : a.connection_id = connId
    · rw [if_pos ha] at h
      cases hrest : maxTs rest connId with
      | none =>
        rw [hrest] at h
        injection h with h
        exact ⟨a, List.mem_cons_self a rest, ha, h⟩
      | some v =>
        rw [hrest] at h
        injection h with h
        rcases le_total v a.timestamp with hv | hv
        · refine ⟨a, List.mem_cons_self a rest, ha, ?_⟩
          rw [← h, max_eq_right hv]
        · obtain ⟨s, hs, hsc, hst⟩ := ih v hrest
          refine ⟨s, List.mem_cons_of_mem a hs, hsc, ?_⟩
          rw [hst, ← h, max_eq_left hv]
    · rw [if_neg ha] at h
      obtain ⟨s, hs, hsc, hst⟩ := ih m h
      exact ⟨s, List.mem_cons_of_mem a hs, hsc, hst⟩

theorem maxTs_cons (a : StoredAtt) (rest : List StoredAtt) (connId : Nat) :
    maxTs (a :: rest) connId
      = if a.connection_id = connId then
          (match maxTs rest connId with
           | none => some a.timestamp
           | some v => some (max v a.timestamp))
        else maxTs rest connId := rfl

theorem maxTs_append (l1 l2 : List StoredAtt) (connId : Nat) :
    maxTs (l1 ++ l2) connId = optMax (maxTs l1 connId) (maxTs l2 connId) := by
  induction l1 with
  | nil =>
    show maxTs l2 connId = optMax none (maxTs l2 connId)
    rfl
  | cons a rest ih =>
    show maxTs (a :: (rest ++ l2)) connId = _
    rw [maxTs_cons, maxTs_cons, ih]
    by_cases ha : a.connection_id = connId
    · rw [if_pos ha, if_pos ha]
      cases hr : maxTs rest connId <;> cases hl : maxTs l2 connId <;>
        simp [optMax, max_comm, max_assoc, max_left_comm]
    · rw [if_neg ha, if_neg ha]

theorem insertOrIgnore_eq_of_hasKey (store : List StoredAtt) (r : StoredAtt)
    (h : hasKey store (keyOf r)) : insertOrIgnore store r = store := by
  unfold insertOrIgnore
  rw [if_pos]
  rw [List.any_eq_true]
  obtain ⟨s, hs, hk⟩ := h
  exact ⟨s, hs, decide_eq_true hk⟩

theorem insertOrIgnore_decomp (store : List StoredAtt) (r : StoredAtt) :
    insertOrIgnore store r = store ∨ insertOrIgnore store r = store ++ [r] := by
  unfold insertOrIgnore
  split
  · exact Or.inl rfl
  · exact Or.inr rfl

theorem hasKey_insertOrIgnore (store : List StoredAtt) (r : StoredAtt) :
    hasKey (insertOrIgnore store r) (keyOf r) := by
  unfold insertOrIgnore
  split
  · next h =>
    rw [List.any_eq_true] at h
    obtain ⟨s, hs, hk⟩ := h
    exact ⟨s, hs, of_decide_eq_true hk⟩
  · exact ⟨r, List.mem_append_right _ (List.mem_cons_self r []), rfl⟩

theorem insertEvents_cons (store : List StoredAtt) (connId : Nat) (e : DevEvent)
    (rest : List DevEvent) :
    insertEvents store connId (e :: rest)
      = insertEvents (insertOrIgnore store (mkRow connId e)) connId rest := rfl

theorem insertEvents_decomp (evs : List DevEvent) :
    ∀ (store : List StoredAtt) (connId : Nat),
      ∃ tail, insertEvents store connId evs = store ++ tail
        ∧ ∀ r ∈ tail, ∃ e ∈ evs, r = mkRow connId e := by
  induction evs with
  | nil => intro store connId; exact ⟨[], by simp [insertEvents], by simp⟩
  | cons e rest ih =>
    intro store connId
    rw [insertEvents_cons]
    rcases insertOrIgnore_decomp store (mkRow connId e) with h | h <;> rw [h]
    · obtain ⟨tail, ht, hmem⟩ := ih store connId
      refine ⟨tail, ht, fun r hr => ?_⟩
      obtain ⟨e', he', hre⟩ := hmem r hr
      exact ⟨e', List.mem_cons_of_mem e he', hre⟩
    · obtain ⟨tail, ht, hmem⟩ := ih (store ++ [mkRow connId e]) connId
      refine ⟨[mkRow connId e] ++ tail, ?_, fun r hr => ?_⟩
      · rw [ht, List.append_assoc]
      · rcases List.mem_append.mp hr with hr | hr
        · rw [List.mem_singleton] at hr
          exact ⟨e, List.mem_cons_self e rest, hr⟩
        · obtain ⟨e', he', hre⟩ := hmem r hr
          exact ⟨e', List.mem_cons_of_mem e he', hre⟩

theorem hasKey_insertEvents_of_mem (evs : List DevEvent) :
    ∀ (store : List StoredAtt) (connId : Nat) (e : DevEvent), e ∈ evs →
      hasKey (insertEvents store connId evs) (keyOf (mkRow connId e)) := by
  induction evs with
  | nil => intro store connId e he; simp at he
  | cons a rest ih =>
    intro store connId e he
    rw [insertEvents_cons]
    cases he with
    | head =>
      obtain ⟨tail, ht, _⟩ :=
        insertEvents_decomp rest (insertOrIgnore store (mkRow connId a)) connId
      rw [ht]
      obtain ⟨s, hs, hk⟩ := hasKey_insertOrIgnore store (mkRow connId a)
      exact ⟨s, List.mem_append_left _ hs, hk⟩
    | tail _ hmem => exact ih _ _ _ hmem

theorem insertEvents_eq_of_all_present (evs : List DevEvent) :
    ∀ (store : List StoredAtt) (connId : Nat),
      (∀ e ∈ evs, hasKey store (keyOf (mkRow connId e))) →
      insertEvents store connId evs = store := by
  induction evs with
  | nil => intro store connId _; rfl
  | cons a rest ih =>
    intro store connId h
    rw [insertEvents_cons,
      insertOrIgnore_eq_of_hasKey store _ (h a (List.mem_cons_self a rest))]
    exact ih store connId (fun e he => h e (List.mem_cons_of_mem a he))

theorem fetchMachine_watermark_mono (store : List StoredAtt) (connId daysBack : Nat)
    (now : Int) (events : List DevEvent) :
    fetchWatermark (maxTs store connId) now daysBack ≤
      fetchWatermark (maxTs (fetchMachine store connId daysBack now events) connId)
        now daysBack := by
  obtain ⟨tail, ht, hmem⟩ :=
    insertEvents_decomp
      (retainEvents events (fetchWatermark (maxTs store connId) now daysBack) now)
      store connId
  rw [show fetchMachine store connId daysBack now events
        = insertEvents store connId
            (retainEvents events (fetchWatermark (maxTs store connId) now daysBack) now)
      from rfl, ht, maxTs_append]
  cases htl : maxTs tail connId with
  | none =>
    cases hst : maxTs store connId <;> simp [optMax]
  | some mt =>
    obtain ⟨s, hs, hsc, hst⟩ := maxTs_mem tail connId mt htl
    obtain ⟨e, he, hse⟩ := hmem s hs
    rw [mem_retainEvents] at he
    have hts : fetchWatermark (maxTs store connId) now daysBack < mt := by
      rw [hse] at hst
      simp only [mkRow] at hst
      rw [← hst]
      exact he.2.1
    cases hsm : maxTs store connId with
    | none =>
      rw [hsm] at hts
      show fetchWatermark none now daysBack ≤ fetchWatermark (some mt) now daysBack
      exact aligned_le_dayStart (dayStart_mod _) (le_of_lt hts)
    | some m1 =>
      show fetchWatermark (some m1) now daysBack
        ≤ fetchWatermark (some (max m1 mt)) now daysBack
      exact dayStart_mono (le_max_left m1 mt)

theorem fetchMachine_idem (store : List StoredAtt) (connId daysBack : Nat)
    (now : Int) (events : List DevEvent) :
    fetchMachine (fetchMachine store connId daysBack now events) connId daysBack
        now events
      = fetchMachine store connId daysBack now events := by
  apply insertEvents_eq_of_all_present
  intro e he
  rw [mem_retainEvents] at he
  obtain ⟨hev, hwm2, hnow⟩ := he
  have hwm1 : fetchWatermark (maxTs store connId) now daysBack < e.timestamp :=
    lt_of_le_of_lt (fetchMachine_watermark_mono store connId daysBack now events) hwm2
  exact hasKey_insertEvents_of_mem _ _ _ _
    ((mem_retainEvents events _ now e).mpr ⟨hev, hwm1, hnow⟩)

theorem uniqueKeys_insertOrIgnore (store : List StoredAtt) (r : StoredAtt)
    (h : uniqueKeys store) : uniqueKeys (insertOrIgnore store r) := by
  unfold insertOrIgnore
  split
  · exact h
  · next hany =>
    rw [uniqueKeys, List.pairwise_append]
    refine ⟨h, List.pairwise_singleton _ _, ?_⟩
    intro a ha b hb
    rw [List.mem_singleton] at hb
    subst hb
    intro hk
    exact hany (List.any_eq_true.mpr ⟨a, ha, decide_eq_true hk⟩)

theorem uniqueKeys_insertEvents (evs : List DevEvent) :
    ∀ (store : List StoredAtt) (connId : Nat),
      uniqueKeys store → uniqueKeys (insertEvents store connId evs) := by
  induction evs with
  | nil => intro store connId h; exact h
  | cons a rest ih =>
    intro store connId h
    rw [insertEvents_cons]
    exact ih _ _ (uniqueKeys_insertOrIgnore _ _ h)

theorem uniqueKeys_fetchMachine (store : List StoredAtt) (connId daysBack : Nat)
    (now : Int) (events : List DevEvent) (h : uniqueKeys store) :
    uniqueKeys (fetchMachine store connId daysBack now events) :=
  uniqueKeys_insertEvents _ _ _ h

theorem uniqueKeys_runFetches (calls : List FetchCall) :
    ∀ store, uniqueKeys store → uniqueKeys (runFetches store calls) := by
  induction calls with
  | nil => intro store h; exact h
  | cons c rest ih =>
    intro store h
    exact ih _ (uniqueKeys_fetchMachine _ _ _ _ _ h)

/-- C3: the fetch watermark is the day-start truncation of the maximum stored
attendance timestamp of the machine (characterized as an upper bound that is
attained), or of `now - days_back` days when the machine has no stored
attendance; it is day-aligned and within one day below the base value; the
retained device events are exactly those strictly after the watermark and no
later than `now` (future events relative to `now` are discarded); and every
row of the fetched store is either an old row or comes from such a retained
event. -/
theorem C3_watermark_and_filter (store : List StoredAtt) (connId daysBack : Nat)
    (now : Int) (events : List DevEvent) :
    (∀ e, e ∈ retainEvents events (fetchWatermark (maxTs store connId) now daysBack) now
        ↔ e ∈ events ∧ fetchWatermark (maxTs store connId) now daysBack < e.timestamp
          ∧ e.timestamp ≤ now)
    ∧ fetchWatermark (maxTs store connId) now daysBack % 86400 = 0
    ∧ (∀ m, maxTs store connId = some m →
        fetchWatermark (maxTs store connId) now daysBack ≤ m
        ∧ m < fetchWatermark (maxTs store connId) now daysBack + 86400
        ∧ (∀ s ∈ store, s.connection_id = connId → s.timestamp ≤ m)
        ∧ (∃ s ∈ store, s.connection_id = connId ∧ s.timestamp = m))
    ∧ (maxTs store connId = none →
        fetchWatermark (maxTs store connId) now daysBack ≤ now - (daysBack : Int) * 86400
        ∧ now - (daysBack : Int) * 86400
            < fetchWatermark (maxTs store connId) now daysBack + 86400
        ∧ (∀ s ∈ store, s.connection_id ≠ connId))
    ∧ (∀ r, r ∈ fetchMachine store connId daysBack now events →
        r ∈ store ∨ ∃ e, e ∈ events
          ∧ fetchWatermark (maxTs store connId) now daysBack < e.timestamp
          ∧ e.timestamp ≤ now ∧ r = mkRow connId e) := by
  refine ⟨fun e => mem_retainEvents events _ now e, dayStart_mod _, ?_, ?_, ?_⟩
  · intro m hm
    rw [hm]
    exact ⟨dayStart_le m, lt_dayStart_add m, maxTs_le store connId m hm,
      maxTs_mem store connId m hm⟩
  · intro hm
    rw [hm]
    exact ⟨dayStart_le _, lt_dayStart_add _, maxTs_none store connId hm⟩
  · intro r hr
    obtain ⟨tail, ht, hmem⟩ :=
      insertEvents_decomp
        (retainEvents events (fetchWatermark (maxTs store connId) now daysBack) now)
        store connId
    rw [show fetchMachine store connId daysBack now events
          = insertEvents store connId
              (retainEvents events (fetchWatermark (maxTs store connId) now daysBack) now)
        from rfl, ht] at hr
    rcases List.mem_append.mp hr with hr | hr
    · exact Or.inl hr
    · obtain ⟨e, he, hre⟩ := hmem r hr
      rw [mem_retainEvents] at he
      exact Or.inr ⟨e, he.1, he.2.1, he.2.2, hre⟩

theorem C3_watermark_and_filter_witness :
    fetchWatermark (maxTs wStore3 1) 200000 5 ≤ 100000
    ∧ (wEv3 ∈ retainEvents [wEv3] (fetchWatermark (maxTs wStore3 1) 200000 5) 200000
        ↔ wEv3 ∈ [wEv3] ∧ fetchWatermark (maxTs wStore3 1) 200000 5 < wEv3.timestamp
          ∧ wEv3.timestamp ≤ 200000) :=
  ⟨((C3_watermark_and_filter wStore3 1 5 200000 [wEv3]).2.2.1 100000 rfl).1,
   (C3_watermark_and_filter wStore3 1 5 200000 [wEv3]).1 wEv3⟩

/-- C7: running the attendance ingestion of Fetch twice back to back on the
same device data (same events, same clock reading) leaves the store unchanged
the second time (zero new rows); the composite-key uniqueness invariant
(machine, business user id, timestamp) is preserved by any sequence of Fetch
calls; and an insert whose key is already present is silently ignored (the
store is returned unchanged; `insertOrIgnore` is total, it never errors). -/
theorem C7_idempotent_and_unique (store : List StoredAtt) (connId daysBack : Nat)
    (now : Int) (events : List DevEvent) (calls : List FetchCall) (r : StoredAtt) :
    fetchMachine (fetchMachine store connId daysBack now events) connId daysBack
        now events
      = fetchMachine store connId daysBack now events
    ∧ (uniqueKeys store → uniqueKeys (runFetches store calls))
    ∧ (hasKey store (keyOf r) → insertOrIgnore store r = store) :=
  ⟨fetchMachine_idem store connId daysBack now events,
   fun h => uniqueKeys_runFetches calls store h,
   fun h => insertOrIgnore_eq_of_hasKey store r h⟩

theorem C7_idempotent_and_unique_witness :
    uniqueKeys (runFetches [wRow7] [wCall7]) ∧ insertOrIgnore [wRow7] wRow7 = [wRow7] :=
  ⟨(C7_idempotent_and_unique [wRow7] 1 2 200000 [] [wCall7] wRow7).2.1
      (List.pairwise_singleton _ _),
   (C7_idempotent_and_unique [wRow7] 1 2 200000 [] [wCall7] wRow7).2.2
      ⟨wRow7, List.mem_cons_self wRow7 [], rfl⟩⟩

/-! ## User upsert lemmas -/

theorem find?_append_of_none {p : UserRow → Bool} {l1 : List UserRow}
    (h : ∀ u ∈ l1, p u = false) (l2 : List UserRow) :
    (l1 ++ l2).find? p = l2.find? p := by
  induction l1 with
  | nil => rfl
  | cons a rest ih =>
    show List.find? p (a :: (rest ++ l2)) = _
    rw [List.find?_cons_of_neg _ (by simp [h a (List.mem_cons_self a rest)])]
    exact ih (fun u hu => h u (List.mem_cons_of_mem a hu))

theorem findUser_eq_of_mem (store : List UserRow) (connId : Nat) (userId : String)
    (old : UserRow) (hmem : old ∈ store) (hc : old.connection_id = connId)
    (hu : old.user_id = userId) (huniq : uniqueUserKeys store) :
    store.find? (userKeyMatch connId userId) = some old := by
  induction store with
  | nil => simp at hmem
  | cons a rest ih =>
    rw [uniqueUserKeys, List.pairwise_cons] at huniq
    cases hmem with
    | head =>
      exact List.find?_cons_of_pos _ (by simp [userKeyMatch, hc, hu])
    | tail _ hmem =>
      have ha : userKeyMatch connId userId a = false := by
        by_contra hcon
        rw [Bool.not_eq_false] at hcon
        simp only [userKeyMatch, Bool.and_eq_true, beq_iff_eq] at hcon
        exact huniq.1 old hmem ⟨by rw [hcon.1, hc], by rw [hcon.2, hu]⟩
      rw [List.find?_cons_of_neg _ (by simp [ha])]
      exact ih hmem huniq.2

theorem findUser_upsert (store : List UserRow) (connId uidv : Nat) (userId nm : String) :
    findUser (upsertUser store connId uidv userId nm) connId userId
      = some ⟨connId, uidv, userId, nm,
          match store.find? (userKeyMatch connId userId) with
          | some u => u.synched_time
          | none => none⟩ := by
  unfold findUser upsertUser
  rw [find?_append_of_none]
  · exact List.find?_cons_of_pos _ (by simp [userKeyMatch])
  · intro u hu
    rw [List.mem_filter] at hu
    simpa using hu.2

/-- C8: the upsert keyed by (machine, business user id) replaces the stored
row — the display name and internal device id take the freshly-read values —
while the `synced_at` watermark keeps the previous row's value (null stays
null, non-null keeps its value; a user with no previous row gets null); rows
with any other key are untouched. -/
theorem C8_upsert_preserves_watermark (store : List UserRow) (connId uidv : Nat)
    (userId nm : String) (huniq : uniqueUserKeys store) :
    (∀ old ∈ store, old.connection_id = connId → old.user_id = userId →
      findUser (upsertUser store connId uidv userId nm) connId userId
        = some ⟨connId, uidv, userId, nm, old.synched_time⟩)
    ∧ ((∀ u ∈ store, userKeyMatch connId userId u = false) →
      findUser (upsertUser store connId uidv userId nm) connId userId
        = some ⟨connId, uidv, userId, nm, none⟩)
    ∧ (∀ u ∈ store, userKeyMatch connId userId u = false →
        u ∈ upsertUser store connId uidv userId nm) := by
  refine ⟨?_, ?_, ?_⟩
  · intro old hold hc hu
    rw [findUser_upsert,
      findUser_eq_of_mem store connId userId old hold hc hu huniq]
  · intro hall
    rw [findUser_upsert, List.find?_eq_none.mpr (fun u hu => by simp [hall u hu])]
  · intro u hu hfalse
    unfold upsertUser
    exact List.mem_append_left _ (List.mem_filter.mpr ⟨hu, by simp [hfalse]⟩)

theorem C8_upsert_preserves_watermark_witness :
    findUser (upsertUser [wUser8] 1 9 "u" "new") 1 "u"
      = some ⟨1, 9, "u", "new", wUser8.synched_time⟩ :=
  (C8_upsert_preserves_watermark [wUser8] 1 9 "u" "new"
    (List.pairwise_singleton _ _)).1 wUser8 (List.mem_cons_self _ _) rfl rfl

/-! ## Timestamp-format order lemmas -/

theorem dchar_lt_iff {a b : Nat} (ha : a ≤ 9) (hb : b ≤ 9) :
    dchar a < dchar b ↔ a < b := by
  interval_cases a <;> interval_cases b <;> decide

theorem dchar_inj_iff {a b : Nat} (ha : a ≤ 9) (hb : b ≤ 9) :
    dchar a = dchar b ↔ a = b := by
  interval_cases a <;> interval_cases b <;> decide

theorem charListLt_cons (a b : Char) (as bs : List Char) :
    charListLt (a :: as) (b :: bs)
      = if a < b then true else if b < a then false else charListLt as bs := rfl

theorem charListLt_cons_same (c : Char) (r1 r2 : List Char) :
    charListLt (c :: r1) (c :: r2) = charListLt r1 r2 := by
  rw [charListLt_cons, if_neg (lt_irrefl c), if_neg (lt_irrefl c)]

theorem natListLt_cons (a b : Nat) (as bs : List Nat) :
    natListLt (a :: as) (b :: bs)
      = if a < b then true else if b < a then false else natListLt as bs := rfl

theorem charListLt_map_dchar : ∀ (ds1 ds2 : List Nat), (∀ d ∈ ds1, d ≤ 9) →
    (∀ d ∈ ds2, d ≤ 9) →
    charListLt (ds1.map dchar) (ds2.map dchar) = natListLt ds1 ds2
  | [], [], _, _ => rfl
  | [], _ :: _, _, _ => rfl
  | _ :: _, [], _, _ => rfl
  | a :: as, b :: bs, h1, h2 => by
    simp only [List.map_cons]
    rw [charListLt_cons, natListLt_cons]
    have ha := h1 a (List.mem_cons_self a as)
    have hb := h2 b (List.mem_cons_self b bs)
    by_cases hab : a < b
    · rw [if_pos ((dchar_lt_iff ha hb).mpr hab), if_pos hab]
    · rw [if_neg (fun hc => hab ((dchar_lt_iff ha hb).mp hc)), if_neg hab]
      by_cases hba : b < a
      · rw [if_pos ((dchar_lt_iff hb ha).mpr hba), if_pos hba]
      · rw [if_neg (fun hc => hba ((dchar_lt_iff hb ha).mp hc)), if_neg hba]
        exact charListLt_map_dchar as bs
          (fun d hd => h1 d (List.mem_cons_of_mem a hd))
          (fun d hd => h2 d (List.mem_cons_of_mem b hd))

theorem charListLt_pad2_iff {a b : Nat} (ha : a ≤ 99) (hb : b ≤ 99) :
    charListLt (pad2 a) (pad2 b) = true ↔ a < b := by
  have hmap : charListLt (pad2 a) (pad2 b) = natListLt [a / 10, a % 10] [b / 10, b % 10] :=
    charListLt_map_dchar [a / 10, a % 10] [b / 10, b % 10]
      (by intro d hd; simp at hd; omega) (by intro d hd; simp at hd; omega)
  rw [hmap]
  simp only [natListLt]
  split_ifs <;> simp <;> omega

theorem charListLt_pad4_iff {a b : Nat} (ha : a ≤ 9999) (hb : b ≤ 9999) :
    charListLt (pad4 a) (pad4 b) = true ↔ a < b := by
  have hmap : charListLt (pad4 a) (pad4 b)
      = natListLt [a / 1000, a / 100 % 10, a / 10 % 10, a % 10]
          [b / 1000, b / 100 % 10, b / 10 % 10, b % 10] :=
    charListLt_map_dchar [a / 1000, a / 100 % 10, a / 10 % 10, a % 10]
      [b / 1000, b / 100 % 10, b / 10 % 10, b % 10]
      (by intro d hd; simp at hd; omega) (by intro d hd; simp at hd; omega)
  rw [hmap]
  simp only [natListLt]
  split_ifs <;> simp <;> omega

theorem pad2_inj_iff {a b : Nat} (ha : a ≤ 99) (hb : b ≤ 99) :
    pad2 a = pad2 b ↔ a = b := by
  unfold pad2
  rw [show ([dchar (a / 10), dchar (a % 10)] = [dchar (b / 10), dchar (b % 10)])
      ↔ (dchar (a / 10) = dchar (b / 10) ∧ dchar (a % 10) = dchar (b % 10)) by simp]
  rw [dchar_inj_iff (by omega) (by omega), dchar_inj_iff (by omega) (by omega)]
  omega

theorem pad4_inj_iff {a b : Nat} (ha : a ≤ 9999) (hb : b ≤ 9999) :
    pad4 a = pad4 b ↔ a = b := by
  unfold pad4
  rw [show ([dchar (a / 1000), dchar (a / 100 % 10), dchar (a / 10 % 10), dchar (a % 10)]
        = [dchar (b / 1000), dchar (b / 100 % 10), dchar (b / 10 % 10), dchar (b % 10)])
      ↔ (dchar (a / 1000) = dchar (b / 1000) ∧ dchar (a / 100 % 10) = dchar (b / 100 % 10)
          ∧ dchar (a / 10 % 10) = dchar (b / 10 % 10) ∧ dchar (a % 10) = dchar (b % 10))
    by simp]
  rw [dchar_inj_iff (by omega) (by omega), dchar_inj_iff (by omega) (by omega),
    dchar_inj_iff (by omega) (by omega), dchar_inj_iff (by omega) (by omega)]
  omega

theorem charListLt_append : ∀ (l1 l2 r1 r2 : List Char), l1.length = l2.length →
    charListLt (l1 ++ r1) (l2 ++ r2)
      = (charListLt l1 l2 || (decide (l1 = l2) && charListLt r1 r2))
  | [], [], r1, r2, _ => by simp [charListLt]
  | [], _ :: _, _, _, h => by simp at h
  | _ :: _, [], _, _, h => by simp at h
  | a :: as, b :: bs, r1, r2, h => by
    simp only [List.cons_append]
    rw [charListLt_cons, charListLt_cons]
    by_cases hab : a < b
    · rw [if_pos hab, if_pos hab]
      simp
    · rw [if_neg hab, if_neg hab]
      by_cases hba : b < a
      · rw [if_pos hba, if_pos hba]
        have hne : a ≠ b := ne_of_gt hba
        simp [hne]
      · rw [if_neg hba, if_neg hba]
        have hab2 : a = b := le_antisymm (le_of_not_lt hba) (le_of_not_lt hab)
        subst hab2
        rw [charListLt_append as bs r1 r2 (by simpa using h)]
        simp

theorem seg2_iff {x y : Nat} (hx : x ≤ 99) (hy : y ≤ 99) (c : Char)
    (r1 r2 : List Char) :
    charListLt (pad2 x ++ c :: r1) (pad2 y ++ c :: r2) = true
      ↔ x < y ∨ (x = y ∧ charListLt r1 r2 = true) := by
  rw [charListLt_append (pad2 x) (pad2 y) (c :: r1) (c :: r2) rfl, charListLt_cons_same]
  simp only [Bool.or_eq_true, Bool.and_eq_true, decide_eq_true_eq]
  rw [charListLt_pad2_iff hx hy, pad2_inj_iff hx hy]

theorem seg4_iff {x y : Nat} (hx : x ≤ 9999) (hy : y ≤ 9999) (c : Char)
    (r1 r2 : List Char) :
    charListLt (pad4 x ++ c :: r1) (pad4 y ++ c :: r2) = true
      ↔ x < y ∨ (x = y ∧ charListLt r1 r2 = true) := by
  rw [charListLt_append (pad4 x) (pad4 y) (c :: r1) (c :: r2) rfl, charListLt_cons_same]
  simp only [Bool.or_eq_true, Bool.and_eq_true, decide_eq_true_eq]
  rw [charListLt_pad4_iff hx hy, pad4_inj_iff hx hy]

theorem fmtList_lt_iff (d1 d2 : DT) (h1 : DTvalid d1) (h2 : DTvalid d2) :
    charListLt (fmtList d1) (fmtList d2) = true ↔ chronoLt d1 d2 := by
  obtain ⟨hy1, hy1b, hmo1, hmo1b, hda1, hda1b, hh1, hmi1, hs1⟩ := h1
  obtain ⟨hy2, hy2b, hmo2, hmo2b, hda2, hda2b, hh2, hmi2, hs2⟩ := h2
  unfold fmtList chronoLt
  rw [seg4_iff hy1b hy2b]
  refine or_congr Iff.rfl (and_congr Iff.rfl ?_)
  rw [seg2_iff (by omega) (by omega)]
  refine or_congr Iff.rfl (and_congr Iff.rfl ?_)
  rw [seg2_iff (by omega) (by omega)]
  refine or_congr Iff.rfl (and_congr Iff.rfl ?_)
  rw [seg2_iff (by omega) (by omega)]
  refine or_congr Iff.rfl (and_congr Iff.rfl ?_)
  rw [seg2_iff (by omega) (by omega)]
  refine or_congr Iff.rfl (and_congr Iff.rfl ?_)
  exact charListLt_pad2_iff (by omega) (by omega)

theorem charListLt_irrefl : ∀ l : List Char, charListLt l l = false
  | [] => rfl
  | a :: as => by
    rw [charListLt_cons, if_neg (lt_irrefl a), if_neg (lt_irrefl a)]
    exact charListLt_irrefl as

theorem chronoLt_trichotomy (d1 d2 : DT) (h : d1 ≠ d2) :
    chronoLt d1 d2 ∨ chronoLt d2 d1 := by
  cases d1
  cases d2
  simp only [ne_eq, DT.mk.injEq] at h
  simp only [chronoLt]
  omega

theorem fmt_inj_iff (d1 d2 : DT) (h1 : DTvalid d1) (h2 : DTvalid d2) :
    fmt d1 = fmt d2 ↔ d1 = d2 := by
  constructor
  · intro he
    by_contra hne
    have hl : fmtList d1 = fmtList d2 := by
      have hd : (fmt d1).data = (fmt d2).data := by rw [he]
      exact hd
    rcases chronoLt_trichotomy d1 d2 hne with hlt | hlt
    · have ht := (fmtList_lt_iff d1 d2 h1 h2).mpr hlt
      rw [hl, charListLt_irrefl] at ht
      exact Bool.false_ne_true ht
    · have ht := (fmtList_lt_iff d2 d1 h2 h1).mpr hlt
      rw [hl, charListLt_irrefl] at ht
      exact Bool.false_ne_true ht
  · intro he
    rw [he]

/-- C10: over valid datetimes (four-digit years), the "%Y-%m-%d %H:%M:%S"
rendering is strictly order-preserving: Python/SQLite string less-than on two
rendered timestamps agrees exactly with chronological order, the rendering is
injective (so string equality is timestamp equality, making SQL MAX over the
text column chronologically correct), and the dedup test of line 1216 on two
rendered timestamps decides exactly chronological order. -/
theorem C10_format_order_chronological (d1 d2 : DT) (h1 : DTvalid d1)
    (h2 : DTvalid d2) :
    (pyStrLt (fmt d1) (fmt d2) = true ↔ chronoLt d1 d2)
    ∧ (fmt d1 = fmt d2 ↔ d1 = d2)
    ∧ includeRecord (some (fmt d1)) (fmt d2) = decide (chronoLt d1 d2) := by
  have hlt : pyStrLt (fmt d1) (fmt d2) = true ↔ chronoLt d1 d2 :=
    fmtList_lt_iff d1 d2 h1 h2
  refine ⟨hlt, fmt_inj_iff d1 d2 h1 h2, ?_⟩
  have hne : decide (fmt d1 = "") = false := by
    apply decide_eq_false
    intro hcon
    have hd : (fmt d1).data = ("" : String).data := by rw [hcon]
    simp [fmt, fmtList, pad4] at hd
  rw [show includeRecord (some (fmt d1)) (fmt d2)
        = (decide (fmt d1 = "") || pyStrLt (fmt d1) (fmt d2)) from rfl,
    hne, Bool.false_or]
  cases hc : decide (chronoLt d1 d2) with
  | true => exact hlt.mpr (of_decide_eq_true hc)
  | false =>
    cases hp : pyStrLt (fmt d1) (fmt d2) with
    | false => rfl
    | true =>
      rw [decide_eq_true (hlt.mp hp)] at hc
      exact absurd hc (by simp)

theorem C10_format_order_chronological_witness :
    (pyStrLt (fmt dtA) (fmt dtB) = true ↔ chronoLt dtA dtB)
    ∧ (fmt dtA = fmt dtB ↔ dtA = dtB)
    ∧ includeRecord (some (fmt dtA)) (fmt dtB) = decide (chronoLt dtA dtB) :=
  C10_format_order_chronological dtA dtB (by decide) (by decide)
